import Mathlib

/-!
Verification of the libeufin integration-test harness
(`integration-tests/util.py`, `integration-tests/tests.py`) against its
natural-language specification.

The Python code is shallowly embedded: JSON documents become the inductive
type `Json`; the field-presence checker classes `CheckJsonField` and
`CheckJsonTop` become mutual inductives with `check` functions returning
`Except`; process-facing helpers (`checkPort`, `startSandbox`, `startNexus`,
the atexit-based kill hooks, `setup_function`/`teardown_function`) become
pure functions over oracles describing the outcomes of the external effects
(bind results, readiness-probe results, raised exceptions), producing
explicit event traces.
-/

/-- JSON-like Python values: `None`, booleans, numbers, strings, lists and
dictionaries (association lists of string keys, as produced by `json`). -/
inductive Json where
  | null
  | bool (b : Bool)
  | num (n : Int)
  | str (s : String)
  | arr (elems : List Json)
  | obj (fields : List (String × Json))

mutual

/-- Structural (boolean) equality on `Json`. -/
def Json.beq : Json → Json → Bool
  | .null, .null => true
  | .bool a, .bool b => a == b
  | .num a, .num b => a == b
  | .str a, .str b => a == b
  | .arr a, .arr b => beqList a b
  | .obj a, .obj b => beqFields a b
  | _, _ => false

/-- Structural equality on lists of `Json`. -/
def beqList : List Json → List Json → Bool
  | [], [] => true
  | x :: xs, y :: ys => Json.beq x y && beqList xs ys
  | _, _ => false

/-- Structural equality on association lists of `Json`. -/
def beqFields : List (String × Json) → List (String × Json) → Bool
  | [], [] => true
  | (k, v) :: xs, (l, w) :: ys => k == l && Json.beq v w && beqFields xs ys
  | _, _ => false

end

mutual

theorem Json.beq_iff : ∀ a b : Json, Json.beq a b = true ↔ a = b
  | .null, .null => by simp [Json.beq]
  | .bool a, .bool b => by simp [Json.beq]
  | .num a, .num b => by simp [Json.beq]
  | .str a, .str b => by simp [Json.beq]
  | .arr a, .arr b => by
      simp only [Json.beq, beqList_iff a b]
      constructor
      · intro h; rw [h]
      · intro h; cases h; rfl
  | .obj a, .obj b => by
      simp only [Json.beq, beqFields_iff a b]
      constructor
      · intro h; rw [h]
      · intro h; cases h; rfl
  | .null, .bool _ | .null, .num _ | .null, .str _ | .null, .arr _ | .null, .obj _ => by simp [Json.beq]
  | .bool _, .null | .bool _, .num _ | .bool _, .str _ | .bool _, .arr _ | .bool _, .obj _ => by simp [Json.beq]
  | .num _, .null | .num _, .bool _ | .num _, .str _ | .num _, .arr _ | .num _, .obj _ => by simp [Json.beq]
  | .str _, .null | .str _, .bool _ | .str _, .num _ | .str _, .arr _ | .str _, .obj _ => by simp [Json.beq]
  | .arr _, .null | .arr _, .bool _ | .arr _, .num _ | .arr _, .str _ | .arr _, .obj _ => by simp [Json.beq]
  | .obj _, .null | .obj _, .bool _ | .obj _, .num _ | .obj _, .str _ | .obj _, .arr _ => by simp [Json.beq]

theorem beqList_iff : ∀ a b : List Json, beqList a b = true ↔ a = b
  | [], [] => by simp [beqList]
  | x :: xs, y :: ys => by
      simp only [beqList, Bool.and_eq_true, Json.beq_iff x y, beqList_iff xs ys]
      constructor
      · rintro ⟨h1, h2⟩; rw [h1, h2]
      · intro h; cases h; exact ⟨rfl, rfl⟩
  | [], _ :: _ => by simp [beqList]
  | _ :: _, [] => by simp [beqList]

theorem beqFields_iff : ∀ a b : List (String × Json), beqFields a b = true ↔ a = b
  | [], [] => by simp [beqFields]
  | (k, v) :: xs, (l, w) :: ys => by
      simp only [beqFields, Bool.and_eq_true, Json.beq_iff v w, beqFields_iff xs ys, beq_iff_eq]
      constructor
      · rintro ⟨⟨h1, h2⟩, h3⟩; rw [h1, h2, h3]
      · intro h; cases h; exact ⟨⟨rfl, rfl⟩, rfl⟩
  | [], _ :: _ => by simp [beqFields]
  | _ :: _, [] => by simp [beqFields]

end

instance : DecidableEq Json := fun a b => decidable_of_iff _ (Json.beq_iff a b)

/-- Failure modes of `CheckJsonField.check` / `CheckJsonTop.check`:
`missingField` models the `print(...); sys.exit(1)` branch (the diagnostic
names the field and shows the offending document); `typeError` models the
Python `TypeError` raised by `name not in json` when `json` is not a
container (in particular `None`); `attributeError` models the Python
`AttributeError` raised by `json.get(...)` when `json` has no `get` method. -/
inductive CheckFailure where
  | missingField (name : String) (doc : Json)
  | typeError
  | attributeError
deriving DecidableEq

/-- Python membership test on dictionary keys: `fields.any (·.1 == name)`. -/
def hasField (name : String) (fields : List (String × Json)) : Bool :=
  fields.any (fun p => p.1 == name)

/-- Python `dict.get(name)`: the value under `name`, or `None` when absent. -/
def dictGet (name : String) : List (String × Json) → Json
  | [] => .null
  | (k, v) :: rest => if k == name then v else dictGet name rest

/-- Python substring test, used by `name in json` when `json` is a string. -/
def subStr (needle hay : String) : Bool :=
  needle == "" || (hay.splitOn needle).length ≥ 2

/-- Python `name in json` (`util.py` line 69): key membership for
dictionaries, element membership for lists, substring test for strings, and
a `TypeError` for `None`, booleans and numbers. -/
def pyMem (name : String) : Json → Except CheckFailure Bool
  | .obj fields => .ok (hasField name fields)
  | .arr elems => .ok (elems.any (fun e => Json.beq e (.str name)))
  | .str s => .ok (subStr name s)
  | _ => .error .typeError

/-- Python `json.get(name)` (`util.py` line 73): defined for dictionaries
only; any other value (in particular `None`) raises `AttributeError`. -/
def pyGet (name : String) : Json → Except CheckFailure Json
  | .obj fields => .ok (dictGet name fields)
  | _ => .error .attributeError

mutual

/-- `CheckJsonField` from `util.py`: a field name, an optional nested
contract, and an optionality flag. -/
inductive CheckJsonField where
  | mk (name : String) (nested : Option CheckJsonTop) (optional : Bool)

/-- `CheckJsonTop` from `util.py`: an ordered sequence of field rules. -/
inductive CheckJsonTop where
  | mk (checks : List CheckJsonField)

end

def CheckJsonField.name : CheckJsonField → String
  | .mk n _ _ => n

def CheckJsonField.nested : CheckJsonField → Option CheckJsonTop
  | .mk _ nd _ => nd

def CheckJsonField.optional : CheckJsonField → Bool
  | .mk _ _ o => o

def CheckJsonTop.checks : CheckJsonTop → List CheckJsonField
  | .mk cs => cs

mutual

/-- `CheckJsonField.check` (`util.py` lines 68-73):
if the name is not in the document and the rule is not optional, print the
name and `sys.exit(1)`; then, if a nested contract exists, recurse on
`json.get(name)` unconditionally. -/
def CheckJsonField.check : CheckJsonField → Json → Except CheckFailure Unit
  | .mk name nested opt, json =>
      match pyMem name json with
      | .error e => .error e
      | .ok present =>
          if !present && !opt then .error (.missingField name json)
          else
            match nested with
            | none => .ok ()
            | some t =>
                match pyGet name json with
                | .error e => .error e
                | .ok v =>
                    match CheckJsonTop.check t v with
                    | .error e => .error e
                    | .ok _ => .ok ()

/-- The `for check in self.checks: check.check(json)` loop of
`CheckJsonTop.check`. -/
def checkRules : List CheckJsonField → Json → Except CheckFailure Unit
  | [], _ => .ok ()
  | c :: rest, json =>
      match CheckJsonField.check c json with
      | .error e => .error e
      | .ok _ => checkRules rest json

/-- `CheckJsonTop.check` (`util.py` lines 79-82): run every rule in
declaration order, then return the document itself. -/
def CheckJsonTop.check : CheckJsonTop → Json → Except CheckFailure Json
  | .mk cs, json =>
      match checkRules cs json with
      | .error e => .error e
      | .ok _ => .ok json

end

mutual

/-- The satisfaction condition of the spec, on dictionary documents: every
non-optional rule's field is present, and every rule carrying a nested
contract has its field present with a dictionary value recursively
satisfying the nested contract. -/
def CheckJsonField.sat : CheckJsonField → List (String × Json) → Bool
  | .mk name nested opt, fields =>
      (opt || hasField name fields) &&
      (match nested with
       | none => true
       | some t =>
           hasField name fields &&
           (match dictGet name fields with
            | .obj fs => CheckJsonTop.sat t fs
            | _ => false))

/-- All rules of a rule list are satisfied by the given dictionary. -/
def satRules : List CheckJsonField → List (String × Json) → Bool
  | [], _ => true
  | c :: rest, fields => CheckJsonField.sat c fields && satRules rest fields

/-- A dictionary satisfies a contract when all its rules are satisfied. -/
def CheckJsonTop.sat : CheckJsonTop → List (String × Json) → Bool
  | .mk cs, fields => satRules cs fields

end

mutual

theorem field_check_of_sat : ∀ (c : CheckJsonField) (fields : List (String × Json)),
    c.sat fields = true → c.check (.obj fields) = .ok ()
  | .mk name none opt, fields => by
      intro h
      simp only [CheckJsonField.sat, Bool.and_true] at h
      have hp : (!(hasField name fields) && !opt) = false := by
        cases hopt : opt <;> cases hhf : hasField name fields <;> simp_all
      simp only [CheckJsonField.check, pyMem, hp, Bool.false_eq_true, if_false]
  | .mk name (some t) opt, fields => by
      intro h
      simp only [CheckJsonField.sat, Bool.and_eq_true] at h
      obtain ⟨h1, h2, h3⟩ := h
      have hp : (!(hasField name fields) && !opt) = false := by
        simp [h2]
      simp only [CheckJsonField.check, pyMem, hp, Bool.false_eq_true, if_false, pyGet]
      match hv : dictGet name fields with
      | .obj fs =>
          rw [hv] at h3
          simp only [top_check_of_sat t fs h3]
      | .null => rw [hv] at h3; exact absurd h3 (by simp)
      | .bool b => rw [hv] at h3; exact absurd h3 (by simp)
      | .num n => rw [hv] at h3; exact absurd h3 (by simp)
      | .str s => rw [hv] at h3; exact absurd h3 (by simp)
      | .arr xs => rw [hv] at h3; exact absurd h3 (by simp)
  termination_by c _ => (sizeOf c, 0)

theorem top_check_of_sat : ∀ (t : CheckJsonTop) (fields : List (String × Json)),
    CheckJsonTop.sat t fields = true → t.check (.obj fields) = .ok (.obj fields)
  | .mk cs, fields => by
      intro h
      simp only [CheckJsonTop.sat] at h
      simp only [CheckJsonTop.check, rules_check_of_sat cs fields h]
  termination_by t _ => (sizeOf t, 1)

theorem rules_check_of_sat : ∀ (cs : List CheckJsonField) (fields : List (String × Json)),
    satRules cs fields = true → checkRules cs (.obj fields) = .ok ()
  | [], _ => fun _ => rfl
  | c :: rest, fields => by
      intro h
      rw [satRules, Bool.and_eq_true] at h
      simp only [checkRules, field_check_of_sat c fields h.1, rules_check_of_sat rest fields h.2]
  termination_by cs _ => (sizeOf cs, 0)

end

/-- The contract of `checkNewEbicsConnection` from `json_checks.py`, used as
a concrete sample exercising a nested contract. -/
def newEbicsConnectionTop : CheckJsonTop :=
  .mk [.mk "source" none false, .mk "name" none false, .mk "type" none false,
       .mk "data" (some (.mk [.mk "ebicsURL" none false, .mk "hostID" none false,
                              .mk "partnerID" none false, .mk "userID" none false])) false]

/-- A sample document for `newEbicsConnectionTop` with every field present. -/
def newEbicsConnectionFields : List (String × Json) :=
  [("source", .str "new"), ("name", .str "my-ebics"), ("type", .str "ebics"),
   ("data", .obj [("ebicsURL", .str "http://localhost:5000/ebicsweb"),
                  ("hostID", .str "HOST01"), ("partnerID", .str "PARTNER1"),
                  ("userID", .str "USER1")])]

/-- C1: for every contract and every dictionary document that contains all
of the contract's non-optional field names, with each field carrying a
nested contract having a value that recursively satisfies it, `check`
succeeds (no failure, no exit). -/
theorem claim_C1 (t : CheckJsonTop) (fields : List (String × Json))
    (h : CheckJsonTop.sat t fields = true) :
    CheckJsonTop.check t (.obj fields) = .ok (.obj fields) :=
  top_check_of_sat t fields h

theorem claim_C1_witness :
    CheckJsonTop.sat newEbicsConnectionTop newEbicsConnectionFields = true ∧
    CheckJsonTop.check newEbicsConnectionTop (.obj newEbicsConnectionFields) =
      .ok (.obj newEbicsConnectionFields) :=
  ⟨rfl, claim_C1 newEbicsConnectionTop newEbicsConnectionFields rfl⟩

/-- C10: whenever `CheckJsonTop.check` succeeds it returns the very document
it was given, unmodified, so call sites can use its result as the payload. -/
theorem claim_C10 (t : CheckJsonTop) (doc r : Json)
    (h : CheckJsonTop.check t doc = .ok r) : r = doc := by
  obtain ⟨cs⟩ := t
  simp only [CheckJsonTop.check] at h
  cases hc : checkRules cs doc with
  | error e => rw [hc] at h; exact absurd h (by simp)
  | ok u => rw [hc] at h; injection h with h'; exact h'.symm

/-- The contract of `checkSandboxEbicsHosts` from `json_checks.py`, passed
as a request body in `test-ebics-backup.py`. -/
def sandboxEbicsHostsTop : CheckJsonTop :=
  .mk [.mk "hostID" none false, .mk "ebicsVersion" none false]

/-- The document `test-ebics-backup.py` validates and posts. -/
def sandboxEbicsHostsDoc : Json :=
  .obj [("hostID", .str "HOST01"), ("ebicsVersion", .str "H004")]

theorem claim_C10_witness :
    CheckJsonTop.check sandboxEbicsHostsTop sandboxEbicsHostsDoc = .ok sandboxEbicsHostsDoc ∧
    sandboxEbicsHostsDoc = sandboxEbicsHostsDoc :=
  ⟨rfl, claim_C10 sandboxEbicsHostsTop sandboxEbicsHostsDoc sandboxEbicsHostsDoc rfl⟩

instance {ε α : Type} [DecidableEq ε] [DecidableEq α] : DecidableEq (Except ε α) := fun x y =>
  match x, y with
  | .ok a, .ok b => decidable_of_iff (a = b) (by constructor <;> (intro h; first | rw [h] | injection h))
  | .error e, .error f => decidable_of_iff (e = f) (by constructor <;> (intro h; first | rw [h] | injection h))
  | .ok _, .error _ => isFalse (by intro h; injection h)
  | .error _, .ok _ => isFalse (by intro h; injection h)

/-- The name of the first rule in a rule list whose `optional` flag is
unset, i.e. the first declared required field of a contract. -/
def firstRequiredName : List CheckJsonField → Option String
  | [] => none
  | .mk n _ opt :: rest => if opt then firstRequiredName rest else some n

theorem requiredAbsent_check (f : String) (nf : Option CheckJsonTop)
    (fields : List (String × Json)) (habs : hasField f fields = false) :
    CheckJsonField.check (.mk f nf false) (.obj fields) =
      .error (.missingField f (.obj fields)) := by
  cases nf with
  | none => simp [CheckJsonField.check, pyMem, habs]
  | some t => simp [CheckJsonField.check, pyMem, habs]

theorem optionalPlain_check (n : String) (fields : List (String × Json)) :
    CheckJsonField.check (.mk n none true) (.obj fields) = .ok () := by
  simp only [CheckJsonField.check, pyMem]
  cases hasField n fields <;> rfl

/-- The contract used to refute C2 as stated: its first declared required
field is `f`, but it is preceded by an optional rule `a` that carries a
nested contract requiring `x`. -/
def c2top : CheckJsonTop :=
  .mk [.mk "a" (some (.mk [.mk "x" none false])) true, .mk "f" none false]

/-- A document in which `f` is absent and `a` is present with an empty
dictionary value. -/
def c2fields : List (String × Json) := [("a", .obj [])]

/-- C2 counterexample: for this contract whose first declared required field
is `f` and this document in which `f` is absent, `check` fails naming `x`
(the field missing inside the optional rule's nested contract), not `f` —
so the failure diagnostic does not name `f` and the claimed first-missing-
field determinism fails. -/
theorem claim_C2_counterexample :
    firstRequiredName (CheckJsonTop.checks c2top) = some "f" ∧
    hasField "f" c2fields = false ∧
    CheckJsonTop.check c2top (.obj c2fields) = .error (.missingField "x" (.obj [])) ∧
    CheckJsonTop.check c2top (.obj c2fields) ≠ .error (.missingField "f" (.obj c2fields)) :=
  ⟨rfl, rfl, rfl, by decide⟩

/-- C2 (amended): for every contract whose rules before the first required
field `f` are all optional and carry no nested contract, and every
dictionary document in which `f` is absent, `check` fails with a diagnostic
naming `f` — whatever the later rules are (they are never inspected) and
whichever other fields are present or absent. -/
theorem claim_C2 (pre post : List CheckJsonField) (f : String) (nf : Option CheckJsonTop)
    (fields : List (String × Json))
    (hpre : ∀ c ∈ pre, c.optional = true ∧ c.nested = none)
    (habs : hasField f fields = false) :
    CheckJsonTop.check (.mk (pre ++ .mk f nf false :: post)) (.obj fields) =
      .error (.missingField f (.obj fields)) := by
  have key : checkRules (pre ++ .mk f nf false :: post) (.obj fields) =
      .error (.missingField f (.obj fields)) := by
    induction pre with
    | nil =>
        simp only [List.nil_append, checkRules,
          requiredAbsent_check f nf fields habs]
    | cons c rest ih =>
        obtain ⟨n, nd, o⟩ := c
        obtain ⟨ho, hn⟩ := hpre (.mk n nd o) (List.mem_cons_self _ _)
        simp only [CheckJsonField.optional] at ho
        simp only [CheckJsonField.nested] at hn
        subst ho; subst hn
        simp only [List.cons_append, checkRules, optionalPlain_check n fields]
        exact ih (fun c hc => hpre c (List.mem_cons_of_mem _ hc))
  simp only [CheckJsonTop.check, key]

theorem claim_C2_witness :
    (∀ c ∈ [CheckJsonField.mk "systemID" none true], c.optional = true ∧ c.nested = none) ∧
    hasField "hostID" [("userID", Json.str "USER1")] = false ∧
    CheckJsonTop.check (.mk ([.mk "systemID" none true] ++ .mk "hostID" none false :: [.mk "userID" none false]))
        (.obj [("userID", .str "USER1")]) =
      .error (.missingField "hostID" (.obj [("userID", .str "USER1")])) :=
  ⟨fun c hc => by rw [List.mem_singleton] at hc; subst hc; exact ⟨rfl, rfl⟩,
   rfl,
   claim_C2 [CheckJsonField.mk "systemID" none true] [.mk "userID" none false] "hostID" none
     [("userID", .str "USER1")]
     (fun c hc => by rw [List.mem_singleton] at hc; subst hc; exact ⟨rfl, rfl⟩)
     rfl⟩

theorem dictGet_of_not_hasField (name : String) : ∀ (fields : List (String × Json)),
    hasField name fields = false → dictGet name fields = .null
  | [] => fun _ => rfl
  | (k, v) :: rest => by
      intro h
      simp only [hasField, List.any_cons, Bool.or_eq_false_iff] at h
      simp only [dictGet, h.1, Bool.false_eq_true, if_false]
      exact dictGet_of_not_hasField name rest (by simpa [hasField] using h.2)

theorem topCheck_null_cons (c : CheckJsonField) (cs : List CheckJsonField) :
    CheckJsonTop.check (.mk (c :: cs)) .null = .error .typeError := by
  obtain ⟨n, nd, o⟩ := c
  rfl

/-- The contract used to refute C3 as stated: a single optional rule for
field `data` carrying a nested contract that requires `x`. -/
def c3top : CheckJsonTop := .mk [.mk "data" (some (.mk [.mk "x" none false])) true]

/-- C3 counterexample: the rule for `data` is optional and carries a nested
contract, and `data` is absent from the empty document, yet `check` does
not skip the rule: it recurses into `json.get("data") = None` and fails
with a `TypeError` instead of succeeding. -/
theorem claim_C3_counterexample :
    CheckJsonField.optional (.mk "data" (some (.mk [.mk "x" none false])) true) = true ∧
    hasField "data" ([] : List (String × Json)) = false ∧
    CheckJsonTop.check c3top (.obj []) = .error .typeError ∧
    CheckJsonTop.check c3top (.obj []) ≠ .ok (.obj []) :=
  ⟨rfl, rfl, rfl, by decide⟩

/-- C3 (amended): when a rule with a nested contract does not fail for a
missing required field, `check` recurses unconditionally, passing
`json.get(name)`; for an optional rule whose field is absent from the
dictionary this recurses into `None`, and whenever the nested contract
contains at least one rule the recursion raises a `TypeError` — the rule is
not skipped. -/
theorem claim_C3 (name : String) (t : CheckJsonTop) (fields : List (String × Json))
    (habs : hasField name fields = false) :
    (CheckJsonField.check (.mk name (some t) true) (.obj fields) =
      match CheckJsonTop.check t .null with
      | .error e => .error e
      | .ok _ => .ok ()) ∧
    (∀ c cs, t = .mk (c :: cs) →
      CheckJsonField.check (.mk name (some t) true) (.obj fields) = .error .typeError) := by
  have key : CheckJsonField.check (.mk name (some t) true) (.obj fields) =
      match CheckJsonTop.check t .null with
      | .error e => .error e
      | .ok _ => .ok () := by
    simp only [CheckJsonField.check, pyMem, pyGet, habs, Bool.not_true, Bool.and_false,
      Bool.false_eq_true, if_false, dictGet_of_not_hasField name fields habs]
  refine ⟨key, ?_⟩
  intro c cs ht
  subst ht
  rw [key, topCheck_null_cons c cs]

theorem claim_C3_witness :
    hasField "data" ([] : List (String × Json)) = false ∧
    CheckJsonField.check (.mk "data" (some (.mk [.mk "x" none false])) true) (.obj []) =
      .error .typeError :=
  ⟨rfl, (claim_C3 "data" (.mk [.mk "x" none false]) [] rfl).2 (.mk "x" none false) [] rfl⟩

/-- Three-way comparison from a linear order. -/
def linCmp {α : Type} [LinearOrder α] (a b : α) : Ordering :=
  if a < b then .lt else if b < a then .gt else .eq

theorem linCmp_eq_iff {α : Type} [LinearOrder α] (a b : α) : linCmp a b = .eq ↔ a = b := by
  unfold linCmp
  rcases lt_trichotomy a b with h | h | h
  · simp [h, ne_of_lt h]
  · simp [h, lt_irrefl]
  · simp [h, lt_asymm h, (ne_of_lt h).symm]

theorem linCmp_swap {α : Type} [LinearOrder α] (a b : α) : (linCmp a b).swap = linCmp b a := by
  unfold linCmp
  rcases lt_trichotomy a b with h | h | h
  · simp [h, lt_asymm h, Ordering.swap]
  · simp [h, lt_irrefl, Ordering.swap]
  · simp [h, lt_asymm h, Ordering.swap]

/-- Constructor tag, used to order values of different JSON kinds. -/
def jtag : Json → Nat
  | .null => 0
  | .bool _ => 1
  | .num _ => 2
  | .str _ => 3
  | .arr _ => 4
  | .obj _ => 5

mutual

/-- A total three-way comparison on `Json`, used only to canonicalize
array element order when modelling order-insensitive deep comparison. -/
def Json.cmp : Json → Json → Ordering
  | .null, .null => .eq
  | .bool a, .bool b => linCmp a b
  | .num a, .num b => linCmp a b
  | .str a, .str b => linCmp a b
  | .arr a, .arr b => cmpList a b
  | .obj a, .obj b => cmpFields a b
  | x, y => linCmp (jtag x) (jtag y)

/-- Lexicographic comparison of `Json` lists. -/
def cmpList : List Json → List Json → Ordering
  | [], [] => .eq
  | [], _ :: _ => .lt
  | _ :: _, [] => .gt
  | x :: xs, y :: ys =>
      match Json.cmp x y with
      | .eq => cmpList xs ys
      | o => o

/-- Lexicographic comparison of association lists (key first, then value). -/
def cmpFields : List (String × Json) → List (String × Json) → Ordering
  | [], [] => .eq
  | [], _ :: _ => .lt
  | _ :: _, [] => .gt
  | (k, v) :: xs, (l, w) :: ys =>
      match linCmp k l with
      | .eq =>
          match Json.cmp v w with
          | .eq => cmpFields xs ys
          | o => o
      | o => o

end

mutual

theorem jcmp_swap : ∀ x y : Json, (Json.cmp x y).swap = Json.cmp y x
  | .null, .null => rfl
  | .bool a, .bool b => linCmp_swap a b
  | .num a, .num b => linCmp_swap a b
  | .str a, .str b => linCmp_swap a b
  | .arr a, .arr b => jcmpList_swap a b
  | .obj a, .obj b => jcmpFields_swap a b
  | .null, .bool _ | .null, .num _ | .null, .str _ | .null, .arr _ | .null, .obj _ => rfl
  | .bool _, .null | .bool _, .num _ | .bool _, .str _ | .bool _, .arr _ | .bool _, .obj _ => rfl
  | .num _, .null | .num _, .bool _ | .num _, .str _ | .num _, .arr _ | .num _, .obj _ => rfl
  | .str _, .null | .str _, .bool _ | .str _, .num _ | .str _, .arr _ | .str _, .obj _ => rfl
  | .arr _, .null | .arr _, .bool _ | .arr _, .num _ | .arr _, .str _ | .arr _, .obj _ => rfl
  | .obj _, .null | .obj _, .bool _ | .obj _, .num _ | .obj _, .str _ | .obj _, .arr _ => rfl

theorem jcmpList_swap : ∀ a b : List Json, (cmpList a b).swap = cmpList b a
  | [], [] => rfl
  | [], _ :: _ => rfl
  | _ :: _, [] => rfl
  | x :: xs, y :: ys => by
      simp only [cmpList]
      cases h : Json.cmp x y with
      | eq =>
          have h' : Json.cmp y x = .eq := by rw [← jcmp_swap x y, h]; rfl
          rw [h']
          exact jcmpList_swap xs ys
      | lt =>
          have h' : Json.cmp y x = .gt := by rw [← jcmp_swap x y, h]; rfl
          rw [h']; rfl
      | gt =>
          have h' : Json.cmp y x = .lt := by rw [← jcmp_swap x y, h]; rfl
          rw [h']; rfl

theorem jcmpFields_swap : ∀ a b : List (String × Json), (cmpFields a b).swap = cmpFields b a
  | [], [] => rfl
  | [], _ :: _ => rfl
  | _ :: _, [] => rfl
  | (k, v) :: xs, (l, w) :: ys => by
      simp only [cmpFields]
      cases hk : linCmp k l with
      | eq =>
          have hk' : linCmp l k = .eq := by rw [← linCmp_swap k l, hk]; rfl
          rw [hk']
          cases hv : Json.cmp v w with
          | eq =>
              have hv' : Json.cmp w v = .eq := by rw [← jcmp_swap v w, hv]; rfl
              rw [hv']
              exact jcmpFields_swap xs ys
          | lt =>
              have hv' : Json.cmp w v = .gt := by rw [← jcmp_swap v w, hv]; rfl
              rw [hv']; rfl
          | gt =>
              have hv' : Json.cmp w v = .lt := by rw [← jcmp_swap v w, hv]; rfl
              rw [hv']; rfl
      | lt =>
          have hk' : linCmp l k = .gt := by rw [← linCmp_swap k l, hk]; rfl
          rw [hk']; rfl
      | gt =>
          have hk' : linCmp l k = .lt := by rw [← linCmp_swap k l, hk]; rfl
          rw [hk']; rfl

end

mutual

theorem jcmp_eq_iff : ∀ x y : Json, Json.cmp x y = .eq ↔ x = y
  | .null, .null => by simp [Json.cmp]
  | .bool a, .bool b => by
      simp only [Json.cmp, linCmp_eq_iff, Json.bool.injEq]
  | .num a, .num b => by
      simp only [Json.cmp, linCmp_eq_iff, Json.num.injEq]
  | .str a, .str b => by
      simp only [Json.cmp, linCmp_eq_iff, Json.str.injEq]
  | .arr a, .arr b => by
      simp only [Json.cmp, jcmpList_eq_iff a b, Json.arr.injEq]
  | .obj a, .obj b => by
      simp only [Json.cmp, jcmpFields_eq_iff a b, Json.obj.injEq]
  | .null, .bool _ | .null, .num _ | .null, .str _ | .null, .arr _ | .null, .obj _ =>
      ⟨(fun h => nomatch h), (fun h => nomatch h)⟩
  | .bool _, .null | .bool _, .num _ | .bool _, .str _ | .bool _, .arr _ | .bool _, .obj _ =>
      ⟨(fun h => nomatch h), (fun h => nomatch h)⟩
  | .num _, .null | .num _, .bool _ | .num _, .str _ | .num _, .arr _ | .num _, .obj _ =>
      ⟨(fun h => nomatch h), (fun h => nomatch h)⟩
  | .str _, .null | .str _, .bool _ | .str _, .num _ | .str _, .arr _ | .str _, .obj _ =>
      ⟨(fun h => nomatch h), (fun h => nomatch h)⟩
  | .arr _, .null | .arr _, .bool _ | .arr _, .num _ | .arr _, .str _ | .arr _, .obj _ =>
      ⟨(fun h => nomatch h), (fun h => nomatch h)⟩
  | .obj _, .null | .obj _, .bool _ | .obj _, .num _ | .obj _, .str _ | .obj _, .arr _ =>
      ⟨(fun h => nomatch h), (fun h => nomatch h)⟩

theorem jcmpList_eq_iff : ∀ a b : List Json, cmpList a b = .eq ↔ a = b
  | [], [] => by simp [cmpList]
  | [], _ :: _ => by simp [cmpList]
  | _ :: _, [] => by simp [cmpList]
  | x :: xs, y :: ys => by
      simp only [cmpList, List.cons.injEq]
      cases h : Json.cmp x y with
      | eq =>
          have hx : x = y := (jcmp_eq_iff x y).mp h
          simp only [hx, true_and, jcmpList_eq_iff xs ys]
      | lt =>
          have hx : ¬(x = y) := fun he => by rw [(jcmp_eq_iff x y).mpr he] at h; exact nomatch h
          simp [hx]
      | gt =>
          have hx : ¬(x = y) := fun he => by rw [(jcmp_eq_iff x y).mpr he] at h; exact nomatch h
          simp [hx]

theorem jcmpFields_eq_iff : ∀ a b : List (String × Json), cmpFields a b = .eq ↔ a = b
  | [], [] => by simp [cmpFields]
  | [], _ :: _ => by simp [cmpFields]
  | _ :: _, [] => by simp [cmpFields]
  | (k, v) :: xs, (l, w) :: ys => by
      simp only [cmpFields, List.cons.injEq, Prod.mk.injEq]
      cases hk : linCmp k l with
      | eq =>
          have hkk : k = l := (linCmp_eq_iff k l).mp hk
          cases hv : Json.cmp v w with
          | eq =>
              have hvv : v = w := (jcmp_eq_iff v w).mp hv
              simp only [hkk, hvv, true_and, jcmpFields_eq_iff xs ys]
          | lt =>
              have hvv : ¬(v = w) := fun he => by rw [(jcmp_eq_iff v w).mpr he] at hv; exact nomatch hv
              simp [hvv]
          | gt =>
              have hvv : ¬(v = w) := fun he => by rw [(jcmp_eq_iff v w).mpr he] at hv; exact nomatch hv
              simp [hvv]
      | lt =>
          have hkk : ¬(k = l) := fun he => by rw [(linCmp_eq_iff k l).mpr he] at hk; exact nomatch hk
          simp [hkk]
      | gt =>
          have hkk : ¬(k = l) := fun he => by rw [(linCmp_eq_iff k l).mpr he] at hk; exact nomatch hk
          simp [hkk]

end

/-- Non-strict order on `Json` induced by `Json.cmp`. -/
def jle (x y : Json) : Bool :=
  match Json.cmp x y with
  | .gt => false
  | _ => true

theorem jle_refl (x : Json) : jle x x = true := by
  unfold jle
  rw [(jcmp_eq_iff x x).mpr rfl]

theorem jle_total (x y : Json) : jle x y = true ∨ jle y x = true := by
  unfold jle
  have hs := jcmp_swap x y
  cases h : Json.cmp x y with
  | lt => exact Or.inl rfl
  | eq => exact Or.inl rfl
  | gt =>
      rw [h] at hs
      rw [← hs]
      exact Or.inr rfl

theorem jle_antisymm (x y : Json) (h1 : jle x y = true) (h2 : jle y x = true) : x = y := by
  unfold jle at h1 h2
  have hs := jcmp_swap x y
  cases h : Json.cmp x y with
  | eq => exact (jcmp_eq_iff x y).mp h
  | lt =>
      rw [h] at hs
      rw [← hs] at h2
      exact absurd h2 (by simp [Ordering.swap])
  | gt =>
      rw [h] at h1
      exact absurd h1 (by simp)

/-- Insertion into a `jle`-sorted list. -/
def jinsert (x : Json) : List Json → List Json
  | [] => [x]
  | y :: ys => if jle x y then x :: y :: ys else y :: jinsert x ys

/-- Insertion sort of `Json` lists by `jle`, giving arrays a canonical
element order. -/
def jsort : List Json → List Json
  | [] => []
  | x :: xs => jinsert x (jsort xs)

theorem jsort_pair (x y : Json) : jsort [x, y] = jsort [y, x] := by
  simp only [jsort, jinsert]
  cases h1 : jle x y with
  | false =>
      cases h2 : jle y x with
      | false =>
          rcases jle_total x y with h | h
          · rw [h] at h1; exact nomatch h1
          · rw [h] at h2; exact nomatch h2
      | true => simp [h1, h2, jinsert]
  | true =>
      cases h2 : jle y x with
      | false => simp [h1, h2, jinsert]
      | true =>
          have hxy := jle_antisymm x y h1 h2
          subst hxy
          rfl

/-- Comparison on dictionary entries: key first, then value. -/
def fcmp (p q : String × Json) : Ordering :=
  match linCmp p.1 q.1 with
  | .eq => Json.cmp p.2 q.2
  | o => o

/-- Non-strict order on dictionary entries. -/
def fle (p q : String × Json) : Bool :=
  match fcmp p q with
  | .gt => false
  | _ => true

/-- Insertion into an `fle`-sorted association list. -/
def finsert (p : String × Json) : List (String × Json) → List (String × Json)
  | [] => [p]
  | q :: qs => if fle p q then p :: q :: qs else q :: finsert p qs

/-- Insertion sort of association lists, giving dictionaries a canonical
field order. -/
def fsort : List (String × Json) → List (String × Json)
  | [] => []
  | p :: ps => finsert p (fsort ps)

mutual

/-- Canonical form of a JSON document: scalars unchanged, array elements
canonicalized and then sorted (an array is a multiset of canonicalized
elements), dictionary values canonicalized and fields put in a canonical
order. -/
def canon : Json → Json
  | .null => .null
  | .bool b => .bool b
  | .num n => .num n
  | .str s => .str s
  | .arr xs => .arr (jsort (canonList xs))
  | .obj fs => .obj (fsort (canonFields fs))

/-- Canonicalize every element of a list. -/
def canonList : List Json → List Json
  | [] => []
  | x :: xs => canon x :: canonList xs

/-- Canonicalize every value of an association list. -/
def canonFields : List (String × Json) → List (String × Json)
  | [] => []
  | (k, v) :: fs => (k, canon v) :: canonFields fs

end

/-- Modelled from the spec: the deep, order-insensitive structural
equivalence computed by the external `deepdiff.DeepDiff` library (not part
of this repository) as invoked by `assertJsonEqual` with `ignore_order=True`
and `report_repetition=True` — two documents are equivalent when they agree
up to reordering of array elements (arrays are compared as multisets of
canonicalized elements, repetition counts distinguished), with object
fields matched by name and scalars compared exactly. -/
def equivalentJson (j1 j2 : Json) : Bool :=
  Json.beq (canon j1) (canon j2)

/-- `assertJsonEqual` (`util.py` lines 85-87): the assertion passes exactly
when the deep diff of the two documents is empty. -/
def assertJsonEqual (json1 json2 : Json) : Bool :=
  equivalentJson json1 json2

/-- C4: the equivalence used by `assertJsonEqual` is reflexive, treats
arrays as multisets (`[a, b]` is equivalent to `[b, a]` for all elements),
and distinguishes repetition counts (`[a, a]` is never equivalent to
`[a]`). -/
theorem claim_C4 :
    (∀ x : Json, assertJsonEqual x x = true) ∧
    (∀ a b : Json, assertJsonEqual (.arr [a, b]) (.arr [b, a]) = true) ∧
    (∀ a : Json, assertJsonEqual (.arr [a, a]) (.arr [a]) = false) := by
  refine ⟨?_, ?_, ?_⟩
  · intro x
    exact (Json.beq_iff _ _).mpr rfl
  · intro a b
    have h : canon (.arr [a, b]) = canon (.arr [b, a]) := by
      simp only [canon, canonList]
      rw [jsort_pair]
    unfold assertJsonEqual equivalentJson
    rw [h]
    exact (Json.beq_iff _ _).mpr rfl
  · intro a
    cases he : assertJsonEqual (.arr [a, a]) (.arr [a]) with
    | false => rfl
    | true =>
        exfalso
        unfold assertJsonEqual equivalentJson at he
        rw [Json.beq_iff] at he
        simp only [canon, canonList] at he
        rw [show jsort [canon a, canon a] = [canon a, canon a] from by
          simp [jsort, jinsert, jle_refl]] at he
        rw [show jsort [canon a] = [canon a] from rfl] at he
        injection he with h1
        simp at h1

/-- The request half of an HTTP exchange as seen by `assertResponse`:
method, URL, and the body decoded as text when the `requests` library
attached one. -/
structure HttpReq where
  method : String
  url : String
  body : Option String

/-- An HTTP response as seen by `assertResponse`: the request it answers,
the numeric status code, the reason phrase and the body text. -/
structure HttpResp where
  request : HttpReq
  status_code : Nat
  reason : String
  text : String

/-- The `if r.request.body:` clause of `http_trace`: the body is appended
only when it is truthy (present and non-empty). -/
def reqBodyPart : Option String → String
  | some b => if b = "" then "" else "\n" ++ b
  | none => ""

/-- The `request` string built by `http_trace` (`util.py` lines 200-202). -/
def requestStr (rq : HttpReq) : String :=
  rq.method ++ " " ++ rq.url ++ reqBodyPart rq.body

/-- The `response` string built by `http_trace` (`util.py` line 203). -/
def responseStr (r : HttpResp) : String :=
  toString r.status_code ++ " " ++ r.reason ++ "\n" ++ r.text

/-- `http_trace` (`util.py` lines 199-204): the diagnostic attached to a
failed `assertResponse`. -/
def http_trace (r : HttpResp) : String :=
  "(the following communication failed)\n\n" ++ requestStr r.request ++ "\n\n" ++ responseStr r

/-- `assertResponse` (`util.py` lines 198-206): pass the response through
unchanged when its status code is accepted, otherwise fail carrying the
`http_trace` diagnostic. The Python default for `acceptedResponses` is
`[200]`. -/
def assertResponse (r : HttpResp) (acceptedResponses : List Nat) : Except String HttpResp :=
  if r.status_code ∈ acceptedResponses then .ok r else .error (http_trace r)

/-- `sub` occurs as a contiguous substring of `hay`. -/
def strContains (hay sub : String) : Prop :=
  ∃ p q, hay = p ++ (sub ++ q)

theorem strContains_self (s : String) : strContains s s :=
  ⟨"", "", by simp⟩

theorem strContains_empty (hay : String) : strContains hay "" :=
  ⟨"", hay, by simp⟩

theorem strContains_appL (x : String) {hay sub : String} (h : strContains hay sub) :
    strContains (x ++ hay) sub := by
  obtain ⟨p, q, hpq⟩ := h
  exact ⟨x ++ p, q, by rw [hpq, String.append_assoc]⟩

theorem strContains_appR (y : String) {hay sub : String} (h : strContains hay sub) :
    strContains (hay ++ y) sub := by
  obtain ⟨p, q, hpq⟩ := h
  refine ⟨p, q ++ y, ?_⟩
  rw [hpq]
  simp [String.append_assoc]

/-- C5: a response whose status code is in the accepted set is returned
unchanged; any other response fails, and the failure diagnostic contains
the request method and URL, the request body when one is present, the
status code, the reason phrase and the response body text. -/
theorem claim_C5 (r : HttpResp) (accepted : List Nat) :
    (r.status_code ∈ accepted → assertResponse r accepted = .ok r) ∧
    (r.status_code ∉ accepted →
      ∃ msg, assertResponse r accepted = .error msg ∧
        strContains msg r.request.method ∧
        strContains msg r.request.url ∧
        (∀ b, r.request.body = some b → strContains msg b) ∧
        strContains msg (toString r.status_code) ∧
        strContains msg r.reason ∧
        strContains msg r.text) := by
  constructor
  · intro h
    unfold assertResponse
    rw [if_pos h]
  · intro h
    refine ⟨http_trace r, ?_, ?_, ?_, ?_, ?_, ?_, ?_⟩
    · unfold assertResponse
      rw [if_neg h]
    · unfold http_trace requestStr
      exact strContains_appR _ (strContains_appR _ (strContains_appL _ (strContains_appR _
        (strContains_appR _ (strContains_appR _ (strContains_self _))))))
    · unfold http_trace requestStr
      exact strContains_appR _ (strContains_appR _ (strContains_appL _ (strContains_appR _
        (strContains_appL _ (strContains_self _)))))
    · intro b hb
      unfold http_trace requestStr
      rw [hb]
      simp only [reqBodyPart]
      by_cases hb0 : b = ""
      · subst hb0
        exact strContains_empty _
      · rw [if_neg hb0]
        exact strContains_appR _ (strContains_appR _ (strContains_appL _ (strContains_appL _
          (strContains_appL _ (strContains_self _)))))
    · unfold http_trace responseStr
      exact strContains_appL _ (strContains_appR _ (strContains_appR _ (strContains_appR _
        (strContains_appR _ (strContains_self _)))))
    · unfold http_trace responseStr
      exact strContains_appL _ (strContains_appR _ (strContains_appR _ (strContains_appL _
        (strContains_self _))))
    · unfold http_trace responseStr
      exact strContains_appL _ (strContains_appL _ (strContains_self _))

/-- A sample failed exchange: posting a user while the gateway answers 404. -/
def c5resp : HttpResp :=
  { request := { method := "POST", url := "http://localhost:5001/users", body := some "{}" },
    status_code := 404, reason := "Not Found", text := "user endpoint gone" }

/-- A sample successful exchange. -/
def c5respOk : HttpResp :=
  { request := { method := "GET", url := "http://localhost:5001/", body := none },
    status_code := 200, reason := "OK", text := "hello" }

theorem claim_C5_witness :
    ((200 : Nat) ∈ [200] ∧ assertResponse c5respOk [200] = .ok c5respOk) ∧
    ((404 : Nat) ∉ ([200] : List Nat) ∧
      ∃ msg, assertResponse c5resp [200] = .error msg ∧
        strContains msg c5resp.request.method ∧
        strContains msg c5resp.request.url ∧
        (∀ b, c5resp.request.body = some b → strContains msg b) ∧
        strContains msg (toString c5resp.status_code) ∧
        strContains msg c5resp.reason ∧
        strContains msg c5resp.text) :=
  ⟨⟨by decide, (claim_C5 c5respOk [200]).1 (by decide)⟩,
   ⟨by decide, (claim_C5 c5resp [200]).2 (by decide)⟩⟩

/-- One socket-API action performed by `checkPort`. -/
inductive SockEvent where
  | sockCreate
  | setReuseAddr
  | bindPort (port : Nat)
  | sockClose
deriving DecidableEq

/-- `checkPort` (`util.py` lines 90-99), over an oracle `bindFails` giving
the outcome of binding a TCP listener on a port: create a socket, enable
SO_REUSEADDR, try to bind; on success close the socket and return normally
(exit code `none`); on any failure (the bare `except:`) print and
`exit(77)`. -/
def checkPort (bindFails : Nat → Bool) (port : Nat) : List SockEvent × Option Nat :=
  if bindFails port then
    ([.sockCreate, .setReuseAddr, .bindPort port], some 77)
  else
    ([.sockCreate, .setReuseAddr, .bindPort port, .sockClose], none)

/-- C6: `checkPort` binds with address reuse enabled and, on success,
releases the socket and returns normally; on any binding failure it exits
with the reserved code 77, and 77 is the only exit code it can produce. -/
theorem claim_C6 (bindFails : Nat → Bool) (port : Nat) :
    (bindFails port = false →
      checkPort bindFails port =
        ([.sockCreate, .setReuseAddr, .bindPort port, .sockClose], none)) ∧
    (bindFails port = true → (checkPort bindFails port).2 = some 77) ∧
    (∀ c, (checkPort bindFails port).2 = some c → c = 77) := by
  refine ⟨?_, ?_, ?_⟩
  · intro h
    simp [checkPort, h]
  · intro h
    simp [checkPort, h]
  · intro c hc
    unfold checkPort at hc
    cases h : bindFails port with
    | true => rw [h] at hc; simp at hc; exact hc.symm
    | false => rw [h] at hc; simp at hc

theorem claim_C6_witness :
    ((fun p => p == 5000) 5000 = true ∧
      (checkPort (fun p => p == 5000) 5000).2 = some 77) ∧
    ((fun p => p == 5000) 5001 = false ∧
      checkPort (fun p => p == 5000) 5001 =
        ([.sockCreate, .setReuseAddr, .bindPort 5001, .sockClose], none)) :=
  ⟨⟨rfl, (claim_C6 (fun p => p == 5000) 5000).2.1 rfl⟩,
   ⟨rfl, (claim_C6 (fun p => p == 5000) 5001).1 rfl⟩⟩

/-- Where a `Popen` output stream is directed. -/
inductive StreamDest where
  | pipeDest
  | fileDest (path : String)
deriving DecidableEq

/-- A Python runtime error relevant to the supervisor code. -/
inductive PyError where
  | attributeErr
deriving DecidableEq

/-- `Popen.communicate` for one stream: it yields the buffered output only
when the stream was a pipe; for a stream redirected to a file it yields
`None` (the output went to the file, not to the parent process). -/
def communicate (buffered : String) : StreamDest → Option String
  | .pipeDest => some buffered
  | .fileDest _ => none

/-- Python `bytes.decode()` applied to a `communicate` result: decoding
`None` raises `AttributeError`. -/
def decodeStream : Option String → Except PyError String
  | some s => .ok s
  | none => .error .attributeErr

/-- Outcome of a supervisor start function: the service became ready at
some probe attempt, or the process driving the harness exited with a code
(with the output it attached to the report, if any), or a Python exception
escaped. -/
inductive SupervisorOutcome where
  | ready (attemptIdx : Nat)
  | exited (code : Nat) (outputAttached : Option String)
  | raised (e : PyError)
deriving DecidableEq

/-- The `for i in range(n)` readiness-polling loop shared by `startSandbox`
and `startNexus`: probe; on success break; on failure at the last index run
the timeout branch, otherwise sleep and retry. The second `Nat` is the
number of attempts remaining. -/
def pollLoop (probe : Nat → Bool) (timeoutRes : SupervisorOutcome) : Nat → Nat → SupervisorOutcome
  | _, 0 => timeoutRes
  | i, n + 1 =>
      if probe i then .ready i
      else if n = 0 then timeoutRes
      else pollLoop probe timeoutRes (i + 1) n

/-- The timeout branch of `startSandbox` (`util.py` lines 160-164): it
calls `sandbox.communicate()` — but both streams were redirected to the log
files `sandbox-stdout.log` / `sandbox-stderr.log`, so `communicate` returns
`(None, None)` and `stdout.decode()` raises `AttributeError` before
`exit(77)` is reached. -/
def sandboxTimeout (bufOut bufErr : String) : SupervisorOutcome :=
  match decodeStream (communicate bufOut (.fileDest "sandbox-stdout.log")) with
  | .error e => .raised e
  | .ok o =>
      match decodeStream (communicate bufErr (.fileDest "sandbox-stderr.log")) with
      | .error e => .raised e
      | .ok e2 => .exited 77 (some (o ++ "\n" ++ e2))

/-- `startSandbox` (`util.py` lines 141-167): ten probe attempts against
the sandbox root URL, then the timeout branch. -/
def startSandbox (probe : Nat → Bool) (bufOut bufErr : String) : SupervisorOutcome :=
  pollLoop probe (sandboxTimeout bufOut bufErr) 0 10

/-- The timeout branch of `startNexus` (`util.py` lines 189-192):
`nexus.terminate()`, print `"Nexus timed out"`, `exit(77)` — no process
output is captured or attached. -/
def nexusTimeout : SupervisorOutcome := .exited 77 none

/-- `startNexus` (`util.py` lines 170-196): eighty probe attempts against
the nexus root URL, then the timeout branch. -/
def startNexus (probe : Nat → Bool) : SupervisorOutcome :=
  pollLoop probe nexusTimeout 0 80

/-- C7 at the failing input (every readiness probe fails): `startSandbox`
raises `AttributeError` (because `communicate()` on file-redirected streams
returns `None`) instead of attaching the buffered output and exiting 77,
and `startNexus` exits 77 without attaching any output. -/
theorem claim_C7_failing_eval :
    startSandbox (fun _ => false) "buffered stdout" "buffered stderr" =
      .raised .attributeErr ∧
    startSandbox (fun _ => false) "buffered stdout" "buffered stderr" ≠
      .exited 77 (some ("buffered stdout" ++ "\n" ++ "buffered stderr")) ∧
    startNexus (fun _ => false) = .exited 77 none ∧
    startNexus (fun _ => false) ≠ .exited 77 (some "buffered stdout") :=
  ⟨rfl, by decide, rfl, by decide⟩

/-- Events in one execution of the `tests.py` driver process. -/
inductive HarnessEvent where
  | launch (p : String)
  | registerKillHook (p : String)
  | terminate (p : String)
  | waitProc (p : String)
  | exitWith (code : Nat)
deriving DecidableEq

/-- `kill` (`util.py` lines 101-103): send terminate, then wait for the
process to fully exit. -/
def kill (p : String) : List HarnessEvent :=
  [.terminate p, .waitProc p]

/-- Running the atexit registry: Python runs the registered hooks in
reverse registration order whenever the interpreter exits — normally, via
`sys.exit` (as `exit(77)` does), or after an uncaught exception. Each hook
here is the `lambda: kill(name, proc)` registered at launch. -/
def runAtexit (hooks : List String) : List HarnessEvent :=
  hooks.reverse.foldr (fun p acc => kill p ++ acc) []

/-- The process-lifecycle trace of the `tests.py` driver (module level,
lines 120-124), over oracles saying whether each service's readiness loop
exhausts all attempts: `startSandbox` launches the sandbox and registers
its kill hook; on sandbox timeout the `AttributeError` of the timeout
branch escapes and the interpreter exits (running atexit); otherwise
`startNexus` launches the nexus and registers its hook; on nexus timeout
the code calls `nexus.terminate()` directly and then `exit(77)`, which runs
the atexit hooks as well; otherwise the scenarios run and the interpreter
exits normally, running the hooks. -/
def harnessRun (sandboxTO nexusTO : Bool) : List HarnessEvent :=
  if sandboxTO then
    [.launch "sandbox", .registerKillHook "sandbox"] ++ runAtexit ["sandbox"]
  else if nexusTO then
    [.launch "sandbox", .registerKillHook "sandbox",
     .launch "nexus", .registerKillHook "nexus",
     .terminate "nexus", .exitWith 77] ++ runAtexit ["sandbox", "nexus"]
  else
    [.launch "sandbox", .registerKillHook "sandbox",
     .launch "nexus", .registerKillHook "nexus"] ++ runAtexit ["sandbox", "nexus"]

/-- The process `p` was successfully launched during the run. -/
def launched (p : String) (tr : List HarnessEvent) : Prop :=
  HarnessEvent.launch p ∈ tr

instance (p : String) (tr : List HarnessEvent) : Decidable (launched p tr) :=
  inferInstanceAs (Decidable (HarnessEvent.launch p ∈ tr))

/-- How many times a terminate signal was sent to process `p`. -/
def terminateCount (p : String) (tr : List HarnessEvent) : Nat :=
  (tr.filter (fun e => decide (e = HarnessEvent.terminate p))).length

/-- C8 counterexample: on the control-flow path where the nexus readiness
loop times out, the nexus process — although successfully launched — is
sent terminate twice: once directly in the timeout branch and once by the
atexit kill hook that `exit(77)` triggers; so it is not terminated exactly
once on every path. -/
theorem claim_C8_counterexample :
    launched "nexus" (harnessRun false true) ∧
    terminateCount "nexus" (harnessRun false true) = 2 :=
  ⟨by decide, by decide⟩

/-- C8 (amended): for every control-flow path of the driver and every
successfully launched process, a kill hook (terminate then wait) was
registered at launch time and the process is terminated at least once; on
the nexus-timeout path the nexus process receives the terminate signal
twice (directly and through its hook), so "exactly once" does not hold on
every path. -/
theorem claim_C8 (sandboxTO nexusTO : Bool) (p : String)
    (h : launched p (harnessRun sandboxTO nexusTO)) :
    HarnessEvent.registerKillHook p ∈ harnessRun sandboxTO nexusTO ∧
    1 ≤ terminateCount p (harnessRun sandboxTO nexusTO) := by
  cases sandboxTO with
  | true =>
      cases nexusTO with
      | true =>
          simp [harnessRun, launched, runAtexit, kill] at h
          subst h
          exact ⟨by decide, by decide⟩
      | false =>
          simp [harnessRun, launched, runAtexit, kill] at h
          subst h
          exact ⟨by decide, by decide⟩
  | false =>
      cases nexusTO with
      | true =>
          simp [harnessRun, launched, runAtexit, kill] at h
          rcases h with h | h <;> (subst h; exact ⟨by decide, by decide⟩)
      | false =>
          simp [harnessRun, launched, runAtexit, kill] at h
          rcases h with h | h <;> (subst h; exact ⟨by decide, by decide⟩)

theorem claim_C8_witness :
    launched "sandbox" (harnessRun false false) ∧
    (HarnessEvent.registerKillHook "sandbox" ∈ harnessRun false false ∧
      1 ≤ terminateCount "sandbox" (harnessRun false false)) :=
  ⟨by decide, claim_C8 false false "sandbox" (by decide)⟩

/-- Events in one pytest scenario run driven by `tests.py`. -/
inductive ScenarioEvent where
  | runPrepareSandbox
  | runPrepareNexus
  | dropSandboxTables
  | dropNexusTables
  | setupFailureReport
  | runBody
deriving DecidableEq

/-- `teardown_function` (`tests.py` lines 134-136): reset both services'
persistent stores. -/
def teardown_function : List ScenarioEvent :=
  [.dropSandboxTables, .dropNexusTables]

/-- `setup_function` (`tests.py` lines 126-132), over oracles saying
whether `prepareSandbox` / `prepareNexus` raise an `Exception`: on any such
error it runs `teardown_function()` first and then reports the failure via
`assert False, "Setup function failed"`. The Bool says whether setup
succeeded. -/
def setup_function (sandboxErr nexusErr : Bool) : List ScenarioEvent × Bool :=
  if sandboxErr then
    ([.runPrepareSandbox] ++ teardown_function ++ [.setupFailureReport], false)
  else if nexusErr then
    ([.runPrepareSandbox, .runPrepareNexus] ++ teardown_function ++ [.setupFailureReport], false)
  else
    ([.runPrepareSandbox, .runPrepareNexus], true)

/-- One pytest scenario: the test body (and the post-test teardown) run
only when `setup_function` did not fail. -/
def runScenario (sandboxErr nexusErr : Bool) : List ScenarioEvent :=
  match setup_function sandboxErr nexusErr with
  | (evs, true) => evs ++ [.runBody] ++ teardown_function
  | (evs, false) => evs

/-- C9: whenever the setup phase raises an error, the scenario trace ends
with both store resets followed by the failure report — the teardown runs
before the failure is reported — and the scenario body is never attempted. -/
theorem claim_C9 (sandboxErr nexusErr : Bool)
    (h : sandboxErr = true ∨ nexusErr = true) :
    (∃ pre, runScenario sandboxErr nexusErr =
      pre ++ [ScenarioEvent.dropSandboxTables, ScenarioEvent.dropNexusTables,
              ScenarioEvent.setupFailureReport]) ∧
    ScenarioEvent.runBody ∉ runScenario sandboxErr nexusErr := by
  rcases h with h | h
  · subst h
    cases nexusErr with
    | true => exact ⟨⟨[.runPrepareSandbox], rfl⟩, by decide⟩
    | false => exact ⟨⟨[.runPrepareSandbox], rfl⟩, by decide⟩
  · subst h
    cases sandboxErr with
    | true => exact ⟨⟨[.runPrepareSandbox], rfl⟩, by decide⟩
    | false => exact ⟨⟨[.runPrepareSandbox, .runPrepareNexus], rfl⟩, by decide⟩

theorem claim_C9_witness :
    (true = true ∨ false = true) ∧
    ((∃ pre, runScenario true false =
      pre ++ [ScenarioEvent.dropSandboxTables, ScenarioEvent.dropNexusTables,
              ScenarioEvent.setupFailureReport]) ∧
     ScenarioEvent.runBody ∉ runScenario true false) :=
  ⟨Or.inl rfl, claim_C9 true false (Or.inl rfl)⟩
